import Mathlib

/-!
Shallow embedding of the fsub4 link-claim and access-gate subsystem.

Source files embedded here:
  * `storage.py` — `FileRecord`, `SQLiteStorage`, `MongoStorage` (files and
    links tables, `upsert` / `get` / `save_link` / `get_file_id_by_code` /
    `claim_link`);
  * `fsub.py` — `is_user_joined_all`, `build_join_keyboard`;
  * `app.py` — `deep_link_start` (outcome surfaced for a claim result),
    `gate_or_send` (membership gate before store access and delivery), and
    the code-generation loop of `save_file`.

Storage tables are modelled as association lists of rows, in insertion
order, exactly mirroring the SQLite tables (`code` / `file_id` are PRIMARY
KEY) and the Mongo collections (which declare unique indexes on `code` and
`file_id`).  SQLite `UPDATE ... WHERE k = ?` touches every matching row
(modelled with `List.map` under a condition); Mongo `update_one` touches
the first matching document (modelled with `updateFirst`).  Python
truthiness of optional strings (`not file_id`) is modelled by `pyFalsy`:
both `None` and the empty string are falsy.
-/

/-- Python truthiness of an `Optional[str]`: `None` and `""` are falsy. -/
def pyFalsy (s : Option String) : Bool :=
  match s with
  | none => true
  | some s => s == ""

/-- Model of `storage.FileRecord`: one stored artifact (`files` table row). -/
structure FileRecord where
  file_id : String
  db_chat_id : Int
  db_message_id : Int
  kind : String
  caption : Option String
deriving DecidableEq, Repr

/-- One row of the `links` table: `code` (primary key), `file_id`,
nullable `owner_user_id`. -/
structure LinkRow where
  code : String
  file_id : String
  owner_user_id : Option Int
deriving DecidableEq, Repr

/-- The `files` table / collection, in insertion order (unique `file_id`). -/
abbrev FilesTable := List FileRecord

/-- The `links` table / collection, in insertion order (unique `code`). -/
abbrev LinksTable := List LinkRow

/-- Mongo `update_one`: modify the first element matching the filter. -/
def updateFirst (p : α → Bool) (f : α → α) : List α → List α
  | [] => []
  | x :: xs => if p x then f x :: xs else x :: updateFirst p f xs

namespace SQLiteStorage

/-- Model of `SQLiteStorage.upsert`: `INSERT ... ON CONFLICT(file_id) DO UPDATE SET`
every column to the new values (a full replace-by-id). -/
def upsert (fs : FilesTable) (rec : FileRecord) : FilesTable :=
  if (fs.find? (fun r => r.file_id == rec.file_id)).isSome then
    fs.map (fun r => if r.file_id == rec.file_id then rec else r)
  else
    fs ++ [rec]

/-- Model of `SQLiteStorage.get`: `SELECT ... FROM files WHERE file_id=?`. -/
def get (fs : FilesTable) (file_id : String) : Option FileRecord :=
  fs.find? (fun r => r.file_id == file_id)

/-- Model of `SQLiteStorage.save_link`: `INSERT INTO links(code, file_id, owner_user_id)
VALUES(?, ?, NULL) ON CONFLICT(code) DO UPDATE SET file_id=excluded.file_id`.
On conflict only `file_id` is updated; `owner_user_id` is left untouched. -/
def save_link (ls : LinksTable) (code file_id : String) : LinksTable :=
  if (ls.find? (fun r => r.code == code)).isSome then
    ls.map (fun r => if r.code == code then { r with file_id := file_id } else r)
  else
    ls ++ [⟨code, file_id, none⟩]

/-- Model of `SQLiteStorage.get_file_id_by_code`: `SELECT file_id FROM links WHERE code=?`. -/
def get_file_id_by_code (ls : LinksTable) (code : String) : Option String :=
  (ls.find? (fun r => r.code == code)).map (·.file_id)

/-- Model of `SQLiteStorage.claim_link`: look the row up; if absent return
`("INVALID", None)`; if the owner is NULL run
`UPDATE links SET owner_user_id=? WHERE code=? AND owner_user_id IS NULL`,
re-read the owner, and return `("OK", file_id)` exactly when the re-read
owner equals the caller; otherwise compare owners.  Returns the result pair
together with the table state after the call. -/
def claim_link (ls : LinksTable) (code : String) (user_id : Int) :
    (String × Option String) × LinksTable :=
  match ls.find? (fun r => r.code == code) with
  | none => (("INVALID", none), ls)
  | some row =>
    match row.owner_user_id with
    | none =>
      let ls' := ls.map (fun r =>
        if r.code == code && r.owner_user_id == none
        then { r with owner_user_id := some user_id } else r)
      let owner2 := (ls'.find? (fun r => r.code == code)).bind (·.owner_user_id)
      if owner2 == some user_id then (("OK", some row.file_id), ls')
      else (("NOT_OWNER", none), ls')
    | some owner =>
      if owner != user_id then (("NOT_OWNER", none), ls)
      else (("OK", some row.file_id), ls)

end SQLiteStorage

namespace MongoStorage

/-- Model of `MongoStorage.upsert`: `update_one({file_id}, {$set: rec.__dict__},
upsert=True)` — replace the first matching document or insert. -/
def upsert (fs : FilesTable) (rec : FileRecord) : FilesTable :=
  if (fs.find? (fun r => r.file_id == rec.file_id)).isSome then
    updateFirst (fun r => r.file_id == rec.file_id) (fun _ => rec) fs
  else
    fs ++ [rec]

/-- Model of `MongoStorage.get`: `find_one({file_id})`. -/
def get (fs : FilesTable) (file_id : String) : Option FileRecord :=
  fs.find? (fun r => r.file_id == file_id)

/-- Model of `MongoStorage.save_link`: `update_one({code},
{$set: {file_id}, $setOnInsert: {code, owner_user_id: None}}, upsert=True)` —
on an existing document only `file_id` changes; `owner_user_id` is written
(as unset) only on insertion. -/
def save_link (ls : LinksTable) (code file_id : String) : LinksTable :=
  if (ls.find? (fun r => r.code == code)).isSome then
    updateFirst (fun r => r.code == code) (fun r => { r with file_id := file_id }) ls
  else
    ls ++ [⟨code, file_id, none⟩]

/-- Model of `MongoStorage.get_file_id_by_code`: `find_one({code}, {file_id: 1})`. -/
def get_file_id_by_code (ls : LinksTable) (code : String) : Option String :=
  (ls.find? (fun r => r.code == code)).map (·.file_id)

/-- Model of `MongoStorage.claim_link`: find the document; if absent
`("INVALID", None)`; if the owner is unset run the conditional
`update_one({code, owner_user_id: None}, {$set: {owner_user_id: user_id}})`
and return `("OK", file_id)` exactly when `modified_count == 1`; otherwise
compare owners. -/
def claim_link (ls : LinksTable) (code : String) (user_id : Int) :
    (String × Option String) × LinksTable :=
  match ls.find? (fun r => r.code == code) with
  | none => (("INVALID", none), ls)
  | some doc =>
    match doc.owner_user_id with
    | none =>
      let p := fun r : LinkRow => r.code == code && r.owner_user_id == none
      let modified : Nat := if (ls.find? p).isSome then 1 else 0
      let ls' := updateFirst p (fun r => { r with owner_user_id := some user_id }) ls
      if modified == 1 then (("OK", some doc.file_id), ls')
      else (("NOT_OWNER", none), ls')
    | some owner =>
      if owner != user_id then (("NOT_OWNER", none), ls)
      else (("OK", some doc.file_id), ls)

end MongoStorage

example :
    SQLiteStorage.claim_link [⟨"c", "f", none⟩] "c" 7 =
      (("OK", some "f"), [⟨"c", "f", some 7⟩]) := by decide

example :
    MongoStorage.claim_link [⟨"c", "f", some 7⟩] "c" 8 =
      (("NOT_OWNER", none), [⟨"c", "f", some 7⟩]) := by decide

example :
    SQLiteStorage.claim_link [⟨"c", "f", some 7⟩] "c" 7 =
      (("OK", some "f"), [⟨"c", "f", some 7⟩]) := by decide

example : MongoStorage.claim_link [] "c" 7 = (("INVALID", none), []) := by decide

/-! ### `fsub.py` -/

/-- The membership oracle: `context.bot.get_chat_member(chat, user_id)`
followed by `getattr(member, "status", None)`.  `.error` models any raised
exception; `.ok s` models a successful query whose extracted status is `s`
(`none` when the member object has no `status` attribute). -/
abbrev MemberOracle := String → Int → Except Unit (Option String)

/-- Model of `fsub.is_user_joined_all`, instrumented with the list of targets it
actually queried (in order).  The loop body: query the oracle; on an
exception return `False`; if the status is `"left"` or `"kicked"` return
`False`; otherwise continue.  Empty target list returns `True`. -/
def is_user_joined_all (oracle : MemberOracle) (user_id : Int) :
    List String → Bool × List String
  | [] => (true, [])
  | chat :: rest =>
    match oracle chat user_id with
    | .error _ => (false, [chat])
    | .ok status =>
      if status == some "left" || status == some "kicked" then (false, [chat])
      else
        ((is_user_joined_all oracle user_id rest).1,
          chat :: (is_user_joined_all oracle user_id rest).2)

/-- One inline button: a join URL button or the "done" callback button. -/
inductive Btn where
  | url (text u : String)
  | cb (text data : String)
deriving DecidableEq, Repr

/-- An inline keyboard: rows of buttons. -/
abbrev Keyboard := List (List Btn)

/-- Python `str(t).startswith("@")`, on the character list (kernel-reducible
form of `String.startsWith`). -/
def startsWithAt (s : String) : Bool :=
  match s.data with
  | [] => false
  | c :: _ => c == '@'

/-- Python `t.lstrip('@')`: drop every leading `'@'`. -/
def lstripAt (s : String) : String :=
  String.mk (s.data.dropWhile (· == '@'))

/-- One step of the button-accumulating loop in `build_join_keyboard`:
append the join button for target `t` (1-based index `idx`) to `buf`, and
flush `buf` into `rows` once `len(buf) >= buttons_per_row`. -/
def joinKbStep (buttons_per_row : Nat) (join_text : String)
    (st : Keyboard × List Btn) (it : Nat × String) : Keyboard × List Btn :=
  let u := if startsWithAt it.2
    then "https://t.me/" ++ lstripAt it.2
    else "https://t.me/"
  let buf := st.2 ++ [Btn.url (join_text ++ " " ++ toString it.1) u]
  if buttons_per_row ≤ buf.length then (st.1 ++ [buf], []) else (st.1, buf)

/-- Model of `fsub.build_join_keyboard`: one URL button per target (labelled
`join_text idx`), chunked into rows of `buttons_per_row`, a trailing
partial row if any, then one final row holding the "done" callback button
carrying `done_callback_data`. -/
def build_join_keyboard (targets : List String) (buttons_per_row : Nat)
    (join_text : String) (done_callback_data : String) : Keyboard :=
  let st := (List.enumFrom 1 targets).foldl (joinKbStep buttons_per_row join_text) ([], [])
  let rows := if st.2.isEmpty then st.1 else st.1 ++ [st.2]
  rows ++ [[Btn.cb "✅ Sudah Join" done_callback_data]]

example :
    build_join_keyboard ["@a", "@b", "@c"] 2 "JOIN" "fsub_done:f" =
      [[Btn.url "JOIN 1" "https://t.me/a", Btn.url "JOIN 2" "https://t.me/b"],
       [Btn.url "JOIN 3" "https://t.me/c"],
       [Btn.cb "✅ Sudah Join" "fsub_done:f"]] := by decide

/-! ### `app.py` -/

/-- An observable side effect of `gate_or_send`. -/
inductive Effect where
  | replyGate (kb : Keyboard)
  | storeGet (file_id : String)
  | replyNotFound
  | copyMessage (from_chat_id message_id : Int)
  | replyCopyFailed
deriving DecidableEq, Repr

/-- Model of `app.gate_or_send` as its trace of observable effects (message and user
present).  `joined` is the value of `is_user_joined_all`; when it is false
the only effect is replying with the gating prompt built by
`build_join_keyboard` whose done-callback data is `"fsub_done:" ++ file_id`
(`CB_DONE = "fsub_done"`).  Otherwise the store is read, and on a hit the
artifact is copied (`copy_ok` says whether `_retryable_copy_message`
ultimately succeeded). -/
def gate_or_send (joined : Bool) (targets : List String) (buttons_per_row : Nat)
    (join_text : String) (fs : FilesTable) (file_id : String) (copy_ok : Bool) :
    List Effect :=
  if !joined then
    [Effect.replyGate
      (build_join_keyboard targets buttons_per_row join_text ("fsub_done:" ++ file_id))]
  else
    match SQLiteStorage.get fs file_id with
    | none => [Effect.storeGet file_id, Effect.replyNotFound]
    | some rec =>
      [Effect.storeGet file_id, Effect.copyMessage rec.db_chat_id rec.db_message_id]
        ++ (if copy_ok then [] else [Effect.replyCopyFailed])

/-- The user-visible outcome chosen by `deep_link_start` from the claim
result. -/
inductive DeepOutcome where
  | linkInvalid
  | linkBoundOther
  | proceed (file_id : Option String)
deriving DecidableEq, Repr

/-- Model of `app.deep_link_start` after `status, file_id = STORE.claim_link(...)`:
`if status == "INVALID" or not file_id:` reply "Link invalid / sudah tidak
berlaku"; `if status == "NOT_OWNER":` reply "Link ini sudah terikat ke akun
lain"; otherwise proceed to `gate_or_send` with `file_id`.  (`not file_id`
is Python truthiness: `pyFalsy`.)  Shown here over the SQLite backend; the
claim-result logic is backend-independent. -/
def deep_link_outcome (ls : LinksTable) (code : String) (user_id : Int) :
    DeepOutcome × LinksTable :=
  let r := SQLiteStorage.claim_link ls code user_id
  let status := r.1.1
  let file_id := r.1.2
  if status == "INVALID" || pyFalsy file_id then (DeepOutcome.linkInvalid, r.2)
  else if status == "NOT_OWNER" then (DeepOutcome.linkBoundOther, r.2)
  else (DeepOutcome.proceed file_id, r.2)

/-- The code-generation loop of `app.save_file`:
`for _ in range(20): c = gen_code(10); if not STORE.get_file_id_by_code(c):
code = c; break`.  `gen i` is the result of the `i`-th `gen_code(10)` call
and `lookup` is `STORE.get_file_id_by_code`.  Returns the chosen code (or
`none` if all attempts collided) together with the number of attempts made
(one `gen_code` call and one `get_file_id_by_code` call per attempt). -/
def pickCodeAux (lookup : String → Option String) (gen : Nat → String) :
    Nat → Nat → Option String × Nat
  | _, 0 => (none, 0)
  | i, remaining + 1 =>
    if pyFalsy (lookup (gen i)) then (some (gen i), 1)
    else
      let r := pickCodeAux lookup gen (i + 1) remaining
      (r.1, r.2 + 1)

/-- The full 20-attempt loop starting at the first generator call. -/
def pickCode (lookup : String → Option String) (gen : Nat → String) :
    Option String × Nat :=
  pickCodeAux lookup gen 0 20

/-- What `save_file` does after the loop: `if not code:` reply
"Gagal generate code unik" and return (no `save_link`); otherwise call
`STORE.save_link(code, file_id)`. -/
inductive GenOutcome where
  | genFailed
  | saveLinkCall (code file_id : String)
deriving DecidableEq, Repr

/-- The outcome of the code-generation phase of `app.save_file`. -/
def save_file_code_phase (lookup : String → Option String) (gen : Nat → String)
    (file_id : String) : GenOutcome :=
  match (pickCode lookup gen).1 with
  | none => GenOutcome.genFailed
  | some c => GenOutcome.saveLinkCall c file_id

/-! ### Branch characterizations of `claim_link` -/

/-- The condition of the SQLite conditional `UPDATE` (and of the Mongo
conditional `update_one` filter): same code, owner still NULL. -/
def claimFilter (code : String) (r : LinkRow) : Bool :=
  r.code == code && r.owner_user_id == none

/-- The owner-write applied by a successful claim. -/
def setOwner (user_id : Int) (r : LinkRow) : LinkRow :=
  { r with owner_user_id := some user_id }

/-- An oracle reporting a status outside the enumerated set
(`"banana"` is none of `member/administrator/creator/restricted/left/kicked`). -/
def unknownStatusOracle : MemberOracle := fun _ _ => Except.ok (some "banana")

/-- An oracle for the C5 witness: `"@a"` is a member, `"@b"` errs,
`"@c"` never gets queried. -/
def c5Oracle : MemberOracle := fun t _ =>
  if t == "@a" then Except.ok (some "member")
  else if t == "@b" then Except.error ()
  else Except.ok (some "member")

/-! ### Gate prompt and `gate_or_send` -/

/-- Recognizer for join (URL) buttons. -/
def isUrlBtn : Btn → Bool
  | Btn.url _ _ => true
  | Btn.cb _ _ => false

/-- Number of join (URL) buttons in a keyboard. -/
def urlCount : Keyboard → Nat
  | [] => 0
  | row :: rows => row.countP isUrlBtn + urlCount rows

/-- Generator stream for the C9 witness: "x0", "x1", "x2", ... -/
def c9Gen : Nat → String := fun i => "x" ++ toString i

/-- Lookup for the C9 witness: only "x0" already maps to a file. -/
def c9Lookup : String → Option String := fun c => if c == "x0" then some "f0" else none

/-! ### Backend equivalence (C3) -/

/-- One operation of the shared storage contract. -/
inductive StoreOp where
  | upsertOp (rec : FileRecord)
  | getOp (file_id : String)
  | saveLinkOp (code file_id : String)
  | codeLookupOp (code : String)
  | claimLinkOp (code : String) (user_id : Int)
deriving DecidableEq, Repr

/-- The externally observable result of one storage operation. -/
inductive StoreReply where
  | ack
  | fileReply (r : Option FileRecord)
  | idReply (s : Option String)
  | claimReply (r : String × Option String)
deriving DecidableEq, Repr

/-- A full store: files table plus links table. -/
abbrev StoreState := FilesTable × LinksTable

/-- One step of the SQLite backend. -/
def sqliteStep (s : StoreState) : StoreOp → StoreReply × StoreState
  | .upsertOp rec => (.ack, (SQLiteStorage.upsert s.1 rec, s.2))
  | .getOp fid => (.fileReply (SQLiteStorage.get s.1 fid), s)
  | .saveLinkOp c f => (.ack, (s.1, SQLiteStorage.save_link s.2 c f))
  | .codeLookupOp c => (.idReply (SQLiteStorage.get_file_id_by_code s.2 c), s)
  | .claimLinkOp c u =>
    (.claimReply (SQLiteStorage.claim_link s.2 c u).1,
      (s.1, (SQLiteStorage.claim_link s.2 c u).2))

/-- One step of the Mongo backend. -/
def mongoStep (s : StoreState) : StoreOp → StoreReply × StoreState
  | .upsertOp rec => (.ack, (MongoStorage.upsert s.1 rec, s.2))
  | .getOp fid => (.fileReply (MongoStorage.get s.1 fid), s)
  | .saveLinkOp c f => (.ack, (s.1, MongoStorage.save_link s.2 c f))
  | .codeLookupOp c => (.idReply (MongoStorage.get_file_id_by_code s.2 c), s)
  | .claimLinkOp c u =>
    (.claimReply (MongoStorage.claim_link s.2 c u).1,
      (s.1, (MongoStorage.claim_link s.2 c u).2))

/-- Run a sequence of operations against the SQLite backend, collecting the
observable replies. -/
def sqliteRun (s : StoreState) : List StoreOp → List StoreReply
  | [] => []
  | op :: ops => (sqliteStep s op).1 :: sqliteRun (sqliteStep s op).2 ops

/-- Run a sequence of operations against the Mongo backend. -/
def mongoRun (s : StoreState) : List StoreOp → List StoreReply
  | [] => []
  | op :: ops => (mongoStep s op).1 :: mongoRun (mongoStep s op).2 ops

/-- Key uniqueness: the PRIMARY KEY on `files.file_id` / `links.code` and
the unique Mongo indexes on the same fields. -/
def keysUnique (s : StoreState) : Prop :=
  (s.1.map (·.file_id)).Nodup ∧ (s.2.map (·.code)).Nodup
/-! ### Generic helper lemmas about `find?`, conditional `map`, `updateFirst` -/

/-- Pushing `find?` through a conditional `map`: the first `q`-match of the mapped
list is the (conditionally transformed) first `q`-match of the original,
provided the transformation's trigger `p` implies `q` and the
transformation does not change `q`. -/
theorem find?_map_ite {p q : α → Bool} {f : α → α} {l : List α} {a : α}
    (hq : l.find? q = some a)
    (himp : ∀ x, p x = true → q x = true)
    (hqf : ∀ x, q (f x) = q x) :
    (l.map (fun x => if p x then f x else x)).find? q
      = some (if p a then f a else a) := by
  induction l with
  | nil => simp at hq
  | cons x xs ih =>
    by_cases hx : q x = true
    · rw [List.find?_cons_of_pos _ hx] at hq
      have hxa : x = a := by simpa using hq
      rw [hxa] at hx ⊢
      simp only [List.map_cons]
      by_cases hp : p a = true
      · rw [if_pos hp]
        exact List.find?_cons_of_pos _ (by rw [hqf]; exact hx)
      · rw [if_neg hp]
        exact List.find?_cons_of_pos _ hx
    · rw [List.find?_cons_of_neg _ hx] at hq
      have hp : ¬ p x = true := fun h => hx (himp x h)
      simp only [List.map_cons]
      rw [if_neg hp, List.find?_cons_of_neg _ hx]
      exact ih hq

/-- Pushing `find?` through `updateFirst`: if the first `q`-match `a` also matches
the update filter `p` (and `p` implies `q`, and `f` keeps `q` true on `a`),
the updated list's first `q`-match is `f a`. -/
theorem find?_updateFirst {p q : α → Bool} {f : α → α} {l : List α} {a : α}
    (hq : l.find? q = some a)
    (hpa : p a = true)
    (himp : ∀ x, p x = true → q x = true)
    (hfa : q (f a) = true) :
    (updateFirst p f l).find? q = some (f a) := by
  induction l with
  | nil => simp at hq
  | cons x xs ih =>
    by_cases hx : q x = true
    · rw [List.find?_cons_of_pos _ hx] at hq
      have hxa : x = a := by simpa using hq
      rw [hxa]
      rw [updateFirst, if_pos hpa]
      exact List.find?_cons_of_pos _ hfa
    · rw [List.find?_cons_of_neg _ hx] at hq
      have hp : ¬ p x = true := fun h => hx (himp x h)
      rw [updateFirst, if_neg hp]
      rw [List.find?_cons_of_neg _ hx]
      exact ih hq

/-- A conditional `map` that can fire at most once coincides with
`updateFirst`. -/
theorem map_ite_eq_updateFirst {p : α → Bool} {f : α → α} {l : List α}
    (h : l.countP p ≤ 1) :
    l.map (fun x => if p x then f x else x) = updateFirst p f l := by
  induction l with
  | nil => rfl
  | cons x xs ih =>
    by_cases hp : p x = true
    · rw [List.countP_cons_of_pos _ _ hp] at h
      have h0 : xs.countP p = 0 := by omega
      have hall : ∀ y ∈ xs, ¬ p y = true := by
        simpa [List.countP_eq_zero] using h0
      rw [updateFirst, if_pos hp]
      simp only [List.map_cons, hp, if_true]
      congr 1
      calc xs.map (fun x => if p x then f x else x)
          = xs.map id := List.map_congr_left (by
            intro y hy
            simp [hall y hy])
        _ = xs := List.map_id xs
    · rw [List.countP_cons_of_neg _ _ (by simpa using hp)] at h
      rw [updateFirst, if_neg hp]
      simp only [List.map_cons, hp, if_false]
      congr 1
      exact ih h

theorem claimFilter_imp_code {code : String} :
    ∀ r : LinkRow, claimFilter code r = true → (r.code == code) = true := by
  intro r h
  unfold claimFilter at h
  exact (Bool.and_eq_true _ _ ▸ h).1

/-- SQLite `claim_link` on an unclaimed row: returns `("OK", file_id)` and
the updated table, whose row for `code` now carries the caller as owner. -/
theorem sqlite_claim_owner_none {ls : LinksTable} {code : String} {row : LinkRow}
    (user_id : Int)
    (h : ls.find? (fun r => r.code == code) = some row)
    (ho : row.owner_user_id = none) :
    SQLiteStorage.claim_link ls code user_id =
      (("OK", some row.file_id),
        ls.map (fun r => if claimFilter code r then setOwner user_id r else r)) ∧
    (ls.map (fun r => if claimFilter code r then setOwner user_id r else r)).find?
        (fun r => r.code == code) = some (setOwner user_id row) := by
  have hrowq : (row.code == code) = true :=
    List.find?_some (p := fun r : LinkRow => r.code == code) h
  have hprow : claimFilter code row = true := by
    simp [claimFilter, hrowq, ho]
  have hfind :
      (ls.map (fun r => if claimFilter code r then setOwner user_id r else r)).find?
        (fun r => r.code == code) = some (setOwner user_id row) := by
    have := find?_map_ite (p := claimFilter code) (q := fun r => r.code == code)
      (f := setOwner user_id) h claimFilter_imp_code (fun x => rfl)
    rwa [if_pos hprow] at this
  refine ⟨?_, hfind⟩
  simp only [SQLiteStorage.claim_link, h, ho]
  simp only [claimFilter, setOwner] at hfind ⊢
  rw [hfind]
  simp [setOwner]

/-- Mongo `claim_link` on an unclaimed document: the conditional update
matches, `modified_count == 1`, so it returns `("OK", file_id)` and the
updated collection carries the caller as owner. -/
theorem mongo_claim_owner_none {ls : LinksTable} {code : String} {row : LinkRow}
    (user_id : Int)
    (h : ls.find? (fun r => r.code == code) = some row)
    (ho : row.owner_user_id = none) :
    MongoStorage.claim_link ls code user_id =
      (("OK", some row.file_id),
        updateFirst (claimFilter code) (setOwner user_id) ls) ∧
    (updateFirst (claimFilter code) (setOwner user_id) ls).find?
        (fun r => r.code == code) = some (setOwner user_id row) := by
  have hrowq : (row.code == code) = true :=
    List.find?_some (p := fun r : LinkRow => r.code == code) h
  have hprow : claimFilter code row = true := by
    simp [claimFilter, hrowq, ho]
  have hmem : row ∈ ls := List.mem_of_find?_eq_some h
  have hmatched :
      (ls.find? (fun r : LinkRow => r.code == code && r.owner_user_id == none)).isSome
        = true := by
    rw [List.find?_isSome]
    exact ⟨row, hmem, hprow⟩
  have hfind :
      (updateFirst (claimFilter code) (setOwner user_id) ls).find?
        (fun r => r.code == code) = some (setOwner user_id row) :=
    find?_updateFirst h hprow claimFilter_imp_code hrowq
  refine ⟨?_, hfind⟩
  simp only [MongoStorage.claim_link, h, ho]
  rw [hmatched]
  rfl

/-- SQLite `claim_link` by the identity already holding the claim:
`("OK", file_id)`, state untouched. -/
theorem sqlite_claim_owner_eq {ls : LinksTable} {code : String} {row : LinkRow}
    {user_id : Int}
    (h : ls.find? (fun r => r.code == code) = some row)
    (ho : row.owner_user_id = some user_id) :
    SQLiteStorage.claim_link ls code user_id = (("OK", some row.file_id), ls) := by
  simp [SQLiteStorage.claim_link, h, ho]

/-- Mongo `claim_link` by the identity already holding the claim. -/
theorem mongo_claim_owner_eq {ls : LinksTable} {code : String} {row : LinkRow}
    {user_id : Int}
    (h : ls.find? (fun r => r.code == code) = some row)
    (ho : row.owner_user_id = some user_id) :
    MongoStorage.claim_link ls code user_id = (("OK", some row.file_id), ls) := by
  simp [MongoStorage.claim_link, h, ho]

/-- SQLite `claim_link` by a different identity than the bound owner:
`("NOT_OWNER", None)`, state untouched. -/
theorem sqlite_claim_owner_ne {ls : LinksTable} {code : String} {row : LinkRow}
    {owner user_id : Int}
    (h : ls.find? (fun r => r.code == code) = some row)
    (ho : row.owner_user_id = some owner) (hne : owner ≠ user_id) :
    SQLiteStorage.claim_link ls code user_id = (("NOT_OWNER", none), ls) := by
  simp [SQLiteStorage.claim_link, h, ho, hne]

/-- Mongo `claim_link` by a different identity than the bound owner. -/
theorem mongo_claim_owner_ne {ls : LinksTable} {code : String} {row : LinkRow}
    {owner user_id : Int}
    (h : ls.find? (fun r => r.code == code) = some row)
    (ho : row.owner_user_id = some owner) (hne : owner ≠ user_id) :
    MongoStorage.claim_link ls code user_id = (("NOT_OWNER", none), ls) := by
  simp [MongoStorage.claim_link, h, ho, hne]

/-- SQLite `claim_link` on an unknown code: `("INVALID", None)`. -/
theorem sqlite_claim_invalid {ls : LinksTable} {code : String} {user_id : Int}
    (h : ls.find? (fun r => r.code == code) = none) :
    SQLiteStorage.claim_link ls code user_id = (("INVALID", none), ls) := by
  simp [SQLiteStorage.claim_link, h]

/-- Mongo `claim_link` on an unknown code: `("INVALID", None)`. -/
theorem mongo_claim_invalid {ls : LinksTable} {code : String} {user_id : Int}
    (h : ls.find? (fun r => r.code == code) = none) :
    MongoStorage.claim_link ls code user_id = (("INVALID", none), ls) := by
  simp [MongoStorage.claim_link, h]

/-! ### Characterizations of `save_link` -/

/-- Evaluating `find?` over a one-element extension when nothing matched before. -/
theorem find?_append_single {p : α → Bool} {l : List α} (a : α)
    (h : l.find? p = none) :
    (l ++ [a]).find? p = if p a then some a else none := by
  induction l with
  | nil =>
    simp only [List.nil_append]
    by_cases hpa : p a = true
    · rw [List.find?_cons_of_pos _ hpa, if_pos hpa]
    · rw [List.find?_cons_of_neg _ hpa, if_neg hpa]
      rfl
  | cons x xs ih =>
    have hx : ¬ p x = true := by
      intro hx
      rw [List.find?_cons_of_pos _ hx] at h
      cases h
    rw [List.find?_cons_of_neg _ hx] at h
    rw [List.cons_append, List.find?_cons_of_neg _ hx]
    exact ih h

/-- SQLite `save_link` on an existing code: the `ON CONFLICT` branch updates
only `file_id`; the row keeps its owner. -/
theorem sqlite_save_existing {ls : LinksTable} {code : String} {row : LinkRow}
    (file_id : String)
    (h : ls.find? (fun r => r.code == code) = some row) :
    SQLiteStorage.save_link ls code file_id =
      ls.map (fun r => if r.code == code then { r with file_id := file_id } else r) ∧
    (SQLiteStorage.save_link ls code file_id).find? (fun r => r.code == code) =
      some { row with file_id := file_id } := by
  have hrowq : (row.code == code) = true :=
    List.find?_some (p := fun r : LinkRow => r.code == code) h
  have h1 : SQLiteStorage.save_link ls code file_id =
      ls.map (fun r => if r.code == code then { r with file_id := file_id } else r) := by
    simp [SQLiteStorage.save_link, h]
  have h2 := find?_map_ite (p := fun r : LinkRow => r.code == code)
    (q := fun r : LinkRow => r.code == code)
    (f := fun r => { r with file_id := file_id }) h (fun _ hx => hx) (fun _ => rfl)
  rw [if_pos hrowq] at h2
  exact ⟨h1, h1 ▸ h2⟩

/-- SQLite `save_link` on a fresh code: insert with `owner_user_id = NULL`. -/
theorem sqlite_save_new {ls : LinksTable} {code : String} (file_id : String)
    (h : ls.find? (fun r => r.code == code) = none) :
    SQLiteStorage.save_link ls code file_id = ls ++ [⟨code, file_id, none⟩] ∧
    (SQLiteStorage.save_link ls code file_id).find? (fun r => r.code == code) =
      some ⟨code, file_id, none⟩ := by
  have h1 : SQLiteStorage.save_link ls code file_id = ls ++ [⟨code, file_id, none⟩] := by
    simp [SQLiteStorage.save_link, h]
  have h2 := find?_append_single (p := fun r : LinkRow => r.code == code)
    (⟨code, file_id, none⟩ : LinkRow) h
  rw [if_pos (by simp)] at h2
  exact ⟨h1, h1 ▸ h2⟩

/-- Mongo `save_link` on an existing code: `$set` touches only `file_id`;
`$setOnInsert` does not fire. -/
theorem mongo_save_existing {ls : LinksTable} {code : String} {row : LinkRow}
    (file_id : String)
    (h : ls.find? (fun r => r.code == code) = some row) :
    MongoStorage.save_link ls code file_id =
      updateFirst (fun r => r.code == code) (fun r => { r with file_id := file_id }) ls ∧
    (MongoStorage.save_link ls code file_id).find? (fun r => r.code == code) =
      some { row with file_id := file_id } := by
  have hrowq : (row.code == code) = true :=
    List.find?_some (p := fun r : LinkRow => r.code == code) h
  have h1 : MongoStorage.save_link ls code file_id =
      updateFirst (fun r => r.code == code) (fun r => { r with file_id := file_id }) ls := by
    simp [MongoStorage.save_link, h]
  have h2 := find?_updateFirst (p := fun r : LinkRow => r.code == code)
    (q := fun r : LinkRow => r.code == code)
    (f := fun r => { r with file_id := file_id }) h hrowq (fun _ hx => hx) hrowq
  exact ⟨h1, h1 ▸ h2⟩

/-- Mongo `save_link` on a fresh code: upsert inserts the document with
`owner_user_id: None` via `$setOnInsert`. -/
theorem mongo_save_new {ls : LinksTable} {code : String} (file_id : String)
    (h : ls.find? (fun r => r.code == code) = none) :
    MongoStorage.save_link ls code file_id = ls ++ [⟨code, file_id, none⟩] ∧
    (MongoStorage.save_link ls code file_id).find? (fun r => r.code == code) =
      some ⟨code, file_id, none⟩ := by
  have h1 : MongoStorage.save_link ls code file_id = ls ++ [⟨code, file_id, none⟩] := by
    simp [MongoStorage.save_link, h]
  have h2 := find?_append_single (p := fun r : LinkRow => r.code == code)
    (⟨code, file_id, none⟩ : LinkRow) h
  rw [if_pos (by simp)] at h2
  exact ⟨h1, h1 ▸ h2⟩

/-! ### Shape of the `claim_link` result (shared) -/

/-- SQLite `claim_link` carries a `file_id` exactly on `"OK"`; every
non-`"OK"` outcome carries `None`. -/
theorem sqlite_claim_shape (ls : LinksTable) (code : String) (user_id : Int) :
    ((SQLiteStorage.claim_link ls code user_id).1.1 = "OK" ↔
      ((SQLiteStorage.claim_link ls code user_id).1.2).isSome = true) ∧
    ((SQLiteStorage.claim_link ls code user_id).1.1 ≠ "OK" →
      (SQLiteStorage.claim_link ls code user_id).1.2 = none) := by
  cases hfind : ls.find? (fun r => r.code == code) with
  | none =>
    rw [sqlite_claim_invalid hfind]
    exact ⟨by simp, fun _ => rfl⟩
  | some row =>
    cases horow : row.owner_user_id with
    | none =>
      rw [(sqlite_claim_owner_none user_id hfind horow).1]
      exact ⟨by simp, fun hne => absurd rfl hne⟩
    | some owner =>
      by_cases how : owner = user_id
      · subst how
        rw [sqlite_claim_owner_eq hfind horow]
        exact ⟨by simp, fun hne => absurd rfl hne⟩
      · rw [sqlite_claim_owner_ne hfind horow how]
        exact ⟨by simp, fun _ => rfl⟩

/-- Mongo `claim_link` carries a `file_id` exactly on `"OK"`. -/
theorem mongo_claim_shape (ls : LinksTable) (code : String) (user_id : Int) :
    ((MongoStorage.claim_link ls code user_id).1.1 = "OK" ↔
      ((MongoStorage.claim_link ls code user_id).1.2).isSome = true) ∧
    ((MongoStorage.claim_link ls code user_id).1.1 ≠ "OK" →
      (MongoStorage.claim_link ls code user_id).1.2 = none) := by
  cases hfind : ls.find? (fun r => r.code == code) with
  | none =>
    rw [mongo_claim_invalid hfind]
    exact ⟨by simp, fun _ => rfl⟩
  | some row =>
    cases horow : row.owner_user_id with
    | none =>
      rw [(mongo_claim_owner_none user_id hfind horow).1]
      exact ⟨by simp, fun hne => absurd rfl hne⟩
    | some owner =>
      by_cases how : owner = user_id
      · subst how
        rw [mongo_claim_owner_eq hfind horow]
        exact ⟨by simp, fun hne => absurd rfl hne⟩
      · rw [mongo_claim_owner_ne hfind horow how]
        exact ⟨by simp, fun _ => rfl⟩

/-! ### Claim theorems -/

/-- C2: at most one distinct identity ever receives `"OK"` from
`claim_link`, in both backends.  For a link row whose owner is unset, a
claim by `A` returns `("OK", file_id)` and binds the owner to `A`; once the
owner is `A`, every claim by `B ≠ A` returns `("NOT_OWNER", None)` and
leaves the table untouched, and no claim whatsoever (by any `u`) ever
changes the table. -/
theorem claim_link_single_owner
    (ls : LinksTable) (code : String) (row : LinkRow) (a b u : Int)
    (h : ls.find? (fun r => r.code == code) = some row) :
    (row.owner_user_id = none →
      (SQLiteStorage.claim_link ls code a).1 = ("OK", some row.file_id) ∧
      ((SQLiteStorage.claim_link ls code a).2.find? (fun r => r.code == code)) =
        some (setOwner a row) ∧
      (MongoStorage.claim_link ls code a).1 = ("OK", some row.file_id) ∧
      ((MongoStorage.claim_link ls code a).2.find? (fun r => r.code == code)) =
        some (setOwner a row)) ∧
    (row.owner_user_id = some a → b ≠ a →
      SQLiteStorage.claim_link ls code b = (("NOT_OWNER", none), ls) ∧
      MongoStorage.claim_link ls code b = (("NOT_OWNER", none), ls)) ∧
    (row.owner_user_id = some a →
      (SQLiteStorage.claim_link ls code u).2 = ls ∧
      (MongoStorage.claim_link ls code u).2 = ls) := by
  refine ⟨?_, ?_, ?_⟩
  · intro ho
    obtain ⟨hs, hsf⟩ := sqlite_claim_owner_none a h ho
    obtain ⟨hm, hmf⟩ := mongo_claim_owner_none a h ho
    rw [hs, hm]
    exact ⟨rfl, hsf, rfl, hmf⟩
  · intro ho hne
    exact ⟨sqlite_claim_owner_ne h ho (Ne.symm hne),
      mongo_claim_owner_ne h ho (Ne.symm hne)⟩
  · intro ho
    by_cases hu : a = u
    · subst hu
      rw [sqlite_claim_owner_eq h ho, mongo_claim_owner_eq h ho]
      exact ⟨rfl, rfl⟩
    · rw [sqlite_claim_owner_ne h ho hu, mongo_claim_owner_ne h ho hu]
      exact ⟨rfl, rfl⟩

/-- Witness for C2 on concrete tables: a fresh claim by 5 wins; on the
bound table a claim by 6 is `NOT_OWNER` and does not disturb the table. -/
theorem claim_link_single_owner_witness :
    (SQLiteStorage.claim_link [⟨"c", "f", none⟩] "c" 5).1 = ("OK", some "f") ∧
    (MongoStorage.claim_link [⟨"c", "f", none⟩] "c" 5).1 = ("OK", some "f") ∧
    SQLiteStorage.claim_link [⟨"c", "f", some 5⟩] "c" 6 =
      (("NOT_OWNER", none), [⟨"c", "f", some 5⟩]) ∧
    MongoStorage.claim_link [⟨"c", "f", some 5⟩] "c" 6 =
      (("NOT_OWNER", none), [⟨"c", "f", some 5⟩]) ∧
    (SQLiteStorage.claim_link [⟨"c", "f", some 5⟩] "c" 6).2 = [⟨"c", "f", some 5⟩] := by
  have h1 := claim_link_single_owner [⟨"c", "f", none⟩] "c" ⟨"c", "f", none⟩ 5 6 6 rfl
  have h2 := claim_link_single_owner [⟨"c", "f", some 5⟩] "c" ⟨"c", "f", some 5⟩ 5 6 6 rfl
  have q1 := h1.1 rfl
  have q2 := h2.2.1 rfl (by decide)
  have q3 := h2.2.2 rfl
  exact ⟨q1.1, q1.2.2.1, q2.1, q2.2, q3.1⟩

/-- C6: `claim_link` is idempotent for the rightful owner, in both
backends: starting from a table whose row for `code` is either unclaimed
or already owned by `a`, two successive claims by `a` both return
`("OK", file_id)`. -/
theorem claim_link_idempotent_for_owner
    (ls : LinksTable) (code : String) (row : LinkRow) (a : Int)
    (h : ls.find? (fun r => r.code == code) = some row)
    (ho : row.owner_user_id = none ∨ row.owner_user_id = some a) :
    ((SQLiteStorage.claim_link ls code a).1 = ("OK", some row.file_id) ∧
      (SQLiteStorage.claim_link (SQLiteStorage.claim_link ls code a).2 code a).1 =
        ("OK", some row.file_id)) ∧
    ((MongoStorage.claim_link ls code a).1 = ("OK", some row.file_id) ∧
      (MongoStorage.claim_link (MongoStorage.claim_link ls code a).2 code a).1 =
        ("OK", some row.file_id)) := by
  rcases ho with ho | ho
  · obtain ⟨hs, hsf⟩ := sqlite_claim_owner_none a h ho
    obtain ⟨hm, hmf⟩ := mongo_claim_owner_none a h ho
    constructor
    · constructor
      · rw [hs]
      · simp only [hs]
        rw [sqlite_claim_owner_eq hsf rfl]
        rfl
    · constructor
      · rw [hm]
      · simp only [hm]
        rw [mongo_claim_owner_eq hmf rfl]
        rfl
  · constructor
    · constructor
      · rw [sqlite_claim_owner_eq h ho]
      · rw [sqlite_claim_owner_eq h ho]
        rw [sqlite_claim_owner_eq h ho]
    · constructor
      · rw [mongo_claim_owner_eq h ho]
      · rw [mongo_claim_owner_eq h ho]
        rw [mongo_claim_owner_eq h ho]

/-- Witness for C6: claiming a fresh link twice with identity 5, both
backends, returns `("OK", "f")` both times. -/
theorem claim_link_idempotent_for_owner_witness :
    ((SQLiteStorage.claim_link [⟨"c", "f", none⟩] "c" 5).1 = ("OK", some "f") ∧
      (SQLiteStorage.claim_link
        (SQLiteStorage.claim_link [⟨"c", "f", none⟩] "c" 5).2 "c" 5).1 =
        ("OK", some "f")) ∧
    ((MongoStorage.claim_link [⟨"c", "f", none⟩] "c" 5).1 = ("OK", some "f") ∧
      (MongoStorage.claim_link
        (MongoStorage.claim_link [⟨"c", "f", none⟩] "c" 5).2 "c" 5).1 =
        ("OK", some "f")) :=
  claim_link_idempotent_for_owner [⟨"c", "f", none⟩] "c" ⟨"c", "f", none⟩ 5 rfl
    (Or.inl rfl)

/-- After a SQLite `save_link`, the row for `code` exists, carries the new
`file_id`, and carries exactly the owner the table had before the call
(`none` when the code was fresh). -/
theorem sqlite_save_link_find (ls : LinksTable) (code f : String) :
    ∃ row1, (SQLiteStorage.save_link ls code f).find? (fun r => r.code == code) =
        some row1 ∧
      row1.file_id = f ∧
      row1.owner_user_id =
        ((ls.find? (fun r => r.code == code)).bind (·.owner_user_id)) := by
  cases hfind : ls.find? (fun r => r.code == code) with
  | none => exact ⟨⟨code, f, none⟩, (sqlite_save_new f hfind).2, rfl, rfl⟩
  | some row => exact ⟨{ row with file_id := f }, (sqlite_save_existing f hfind).2, rfl, rfl⟩

/-- After a Mongo `save_link`, the document for `code` exists, carries the
new `file_id`, and carries exactly the owner the collection had before. -/
theorem mongo_save_link_find (ls : LinksTable) (code f : String) :
    ∃ row1, (MongoStorage.save_link ls code f).find? (fun r => r.code == code) =
        some row1 ∧
      row1.file_id = f ∧
      row1.owner_user_id =
        ((ls.find? (fun r => r.code == code)).bind (·.owner_user_id)) := by
  cases hfind : ls.find? (fun r => r.code == code) with
  | none => exact ⟨⟨code, f, none⟩, (mongo_save_new f hfind).2, rfl, rfl⟩
  | some row => exact ⟨{ row with file_id := f }, (mongo_save_existing f hfind).2, rfl, rfl⟩

/-- C7: `save_link(code, f1)` then `save_link(code, f2)` leaves the link's
`file_id` equal to `f2` and its `owner_user_id` exactly as after the first
call; a `save_link` over an existing row changes only `file_id` (owner kept
verbatim), and the owner is written as unset only at first insertion — in
both backends. -/
theorem save_link_file_id_owner_frame (ls : LinksTable) (code f1 f2 : String) :
    (((SQLiteStorage.save_link (SQLiteStorage.save_link ls code f1) code f2).find?
        (fun r => r.code == code)).map (·.file_id) = some f2 ∧
      ((SQLiteStorage.save_link (SQLiteStorage.save_link ls code f1) code f2).find?
        (fun r => r.code == code)).bind (·.owner_user_id) =
      ((SQLiteStorage.save_link ls code f1).find?
        (fun r => r.code == code)).bind (·.owner_user_id) ∧
      (∀ row, ls.find? (fun r => r.code == code) = some row →
        (SQLiteStorage.save_link ls code f1).find? (fun r => r.code == code) =
          some { row with file_id := f1 }) ∧
      (ls.find? (fun r => r.code == code) = none →
        (SQLiteStorage.save_link ls code f1).find? (fun r => r.code == code) =
          some ⟨code, f1, none⟩)) ∧
    (((MongoStorage.save_link (MongoStorage.save_link ls code f1) code f2).find?
        (fun r => r.code == code)).map (·.file_id) = some f2 ∧
      ((MongoStorage.save_link (MongoStorage.save_link ls code f1) code f2).find?
        (fun r => r.code == code)).bind (·.owner_user_id) =
      ((MongoStorage.save_link ls code f1).find?
        (fun r => r.code == code)).bind (·.owner_user_id) ∧
      (∀ row, ls.find? (fun r => r.code == code) = some row →
        (MongoStorage.save_link ls code f1).find? (fun r => r.code == code) =
          some { row with file_id := f1 }) ∧
      (ls.find? (fun r => r.code == code) = none →
        (MongoStorage.save_link ls code f1).find? (fun r => r.code == code) =
          some ⟨code, f1, none⟩)) := by
  constructor
  · obtain ⟨r1, hr1, hf1, ho1⟩ := sqlite_save_link_find ls code f1
    obtain ⟨r2, hr2, hf2, ho2⟩ :=
      sqlite_save_link_find (SQLiteStorage.save_link ls code f1) code f2
    rw [hr1] at ho2
    refine ⟨?_, ?_, ?_, ?_⟩
    · rw [hr2]
      simp [hf2]
    · rw [hr2, hr1]
      simpa using ho2
    · intro row hrow
      exact (sqlite_save_existing f1 hrow).2
    · intro hnone
      exact (sqlite_save_new f1 hnone).2
  · obtain ⟨r1, hr1, hf1, ho1⟩ := mongo_save_link_find ls code f1
    obtain ⟨r2, hr2, hf2, ho2⟩ :=
      mongo_save_link_find (MongoStorage.save_link ls code f1) code f2
    rw [hr1] at ho2
    refine ⟨?_, ?_, ?_, ?_⟩
    · rw [hr2]
      simp [hf2]
    · rw [hr2, hr1]
      simpa using ho2
    · intro row hrow
      exact (mongo_save_existing f1 hrow).2
    · intro hnone
      exact (mongo_save_new f1 hnone).2

/-- Witness for C7: on a table where "c" is owned by 9, re-saving twice
keeps owner 9 and ends at file_id "g2", both backends. -/
theorem save_link_file_id_owner_frame_witness :
    (((SQLiteStorage.save_link (SQLiteStorage.save_link [⟨"c", "f", some 9⟩] "c" "g1")
        "c" "g2").find? (fun r => r.code == "c")).map (·.file_id) = some "g2" ∧
      ((SQLiteStorage.save_link (SQLiteStorage.save_link [⟨"c", "f", some 9⟩] "c" "g1")
        "c" "g2").find? (fun r => r.code == "c")).bind (·.owner_user_id) =
      ((SQLiteStorage.save_link [⟨"c", "f", some 9⟩] "c" "g1").find?
        (fun r => r.code == "c")).bind (·.owner_user_id)) ∧
    (((MongoStorage.save_link (MongoStorage.save_link [⟨"c", "f", some 9⟩] "c" "g1")
        "c" "g2").find? (fun r => r.code == "c")).map (·.file_id) = some "g2" ∧
      ((MongoStorage.save_link (MongoStorage.save_link [⟨"c", "f", some 9⟩] "c" "g1")
        "c" "g2").find? (fun r => r.code == "c")).bind (·.owner_user_id) =
      ((MongoStorage.save_link [⟨"c", "f", some 9⟩] "c" "g1").find?
        (fun r => r.code == "c")).bind (·.owner_user_id)) := by
  have h := save_link_file_id_owner_frame [⟨"c", "f", some 9⟩] "c" "g1" "g2"
  exact ⟨⟨h.1.1, h.1.2.1⟩, ⟨h.2.1, h.2.2.1⟩⟩

/-- C10: in both backends `claim_link` returns a `file_id` exactly when it
returns `"OK"`: the `"NOT_OWNER"` and `"INVALID"` outcomes always carry
`None` in the second component. -/
theorem claim_link_file_id_iff_ok (ls : LinksTable) (code : String) (user_id : Int) :
    ((SQLiteStorage.claim_link ls code user_id).1.1 = "OK" ↔
      ((SQLiteStorage.claim_link ls code user_id).1.2).isSome = true) ∧
    ((SQLiteStorage.claim_link ls code user_id).1.1 ≠ "OK" →
      (SQLiteStorage.claim_link ls code user_id).1.2 = none) ∧
    ((MongoStorage.claim_link ls code user_id).1.1 = "OK" ↔
      ((MongoStorage.claim_link ls code user_id).1.2).isSome = true) ∧
    ((MongoStorage.claim_link ls code user_id).1.1 ≠ "OK" →
      (MongoStorage.claim_link ls code user_id).1.2 = none) := by
  obtain ⟨s1, s2⟩ := sqlite_claim_shape ls code user_id
  obtain ⟨m1, m2⟩ := mongo_claim_shape ls code user_id
  exact ⟨s1, s2, m1, m2⟩

/-- Witness for C10 (exercising the implication side at a concrete
NOT_OWNER input): identity 2 claims a link owned by 1. -/
theorem claim_link_file_id_iff_ok_witness :
    (SQLiteStorage.claim_link [⟨"c", "f", some 1⟩] "c" 2).1.2 = none ∧
    (MongoStorage.claim_link [⟨"c", "f", some 1⟩] "c" 2).1.2 = none := by
  have h := claim_link_file_id_iff_ok [⟨"c", "f", some 1⟩] "c" 2
  exact ⟨h.2.1 (by decide), h.2.2.2 (by decide)⟩

/-- C1 (code bug): on a `NOT_OWNER` claim, `deep_link_start` surfaces the
"link invalid" outcome, not the "link bound to another account" outcome:
`claim_link` returns `("NOT_OWNER", None)` and the guard
`status == "INVALID" or not file_id` fires on the falsy `file_id` before
the `NOT_OWNER` branch is reached.  Shown at a concrete failing input
(code "c" owned by identity 1, claimed by identity 2), plus the general
fact that every `NOT_OWNER` claim result is surfaced as `linkInvalid`. -/
theorem deep_link_not_owner_collapsed :
    SQLiteStorage.claim_link [⟨"c", "f", some 1⟩] "c" 2 =
      (("NOT_OWNER", none), [⟨"c", "f", some 1⟩]) ∧
    (deep_link_outcome [⟨"c", "f", some 1⟩] "c" 2).1 = DeepOutcome.linkInvalid ∧
    ∀ (ls : LinksTable) (code : String) (user_id : Int),
      (SQLiteStorage.claim_link ls code user_id).1.1 = "NOT_OWNER" →
      (deep_link_outcome ls code user_id).1 = DeepOutcome.linkInvalid := by
  refine ⟨by decide, by decide, ?_⟩
  intro ls code user_id h
  have hne : (SQLiteStorage.claim_link ls code user_id).1.1 ≠ "OK" := by
    rw [h]
    decide
  have hsnd := (sqlite_claim_shape ls code user_id).2 hne
  simp [deep_link_outcome, hsnd, pyFalsy]

/-! ### Membership gate lemmas -/

/-- The gate passes exactly when every target's oracle query succeeds with
a status that is neither `"left"` nor `"kicked"`. -/
theorem joined_all_true_iff (oracle : MemberOracle) (user_id : Int) :
    ∀ targets : List String,
      (is_user_joined_all oracle user_id targets).1 = true ↔
        ∀ t ∈ targets, ∃ s, oracle t user_id = Except.ok s ∧
          s ≠ some "left" ∧ s ≠ some "kicked" := by
  intro targets
  induction targets with
  | nil => simp [is_user_joined_all]
  | cons chat rest ih =>
    cases hoc : oracle chat user_id with
    | error e =>
      have hres : is_user_joined_all oracle user_id (chat :: rest) = (false, [chat]) := by
        simp [is_user_joined_all, hoc]
      rw [hres]
      constructor
      · intro h
        simp at h
      · intro h
        obtain ⟨s, hs, _, _⟩ := h chat (by simp)
        rw [hoc] at hs
        cases hs
    | ok status =>
      cases hb : (status == some "left" || status == some "kicked") with
      | true =>
        have hres : is_user_joined_all oracle user_id (chat :: rest) = (false, [chat]) := by
          simp [is_user_joined_all, hoc, hb]
        rw [hres]
        have hlk : status = some "left" ∨ status = some "kicked" := by
          simpa using hb
        constructor
        · intro h
          simp at h
        · intro h
          obtain ⟨s, hs, h1, h2⟩ := h chat (by simp)
          rw [hoc] at hs
          injection hs with hs'
          subst hs'
          rcases hlk with rfl | rfl
          · exact (h1 rfl).elim
          · exact (h2 rfl).elim
      | false =>
        have hres1 : (is_user_joined_all oracle user_id (chat :: rest)).1 =
            (is_user_joined_all oracle user_id rest).1 := by
          simp [is_user_joined_all, hoc, hb]
        have hnb : ¬ status = some "left" ∧ ¬ status = some "kicked" := by
          simpa using hb
        rw [hres1, ih, List.forall_mem_cons]
        constructor
        · intro h
          exact ⟨⟨status, hoc, hnb.1, hnb.2⟩, h⟩
        · intro h
          exact h.2

/-- The gate loop stops at the first failing or indeterminate target: it
queries exactly the passing prefix plus that one target, and returns
`false`. -/
theorem joined_all_stops_at_first_failure (oracle : MemberOracle) (user_id : Int) :
    ∀ (pre : List String) (t : String) (post : List String),
      (∀ p ∈ pre, ∃ s, oracle p user_id = Except.ok s ∧
        s ≠ some "left" ∧ s ≠ some "kicked") →
      (oracle t user_id = Except.error () ∨
        oracle t user_id = Except.ok (some "left") ∨
        oracle t user_id = Except.ok (some "kicked")) →
      is_user_joined_all oracle user_id (pre ++ t :: post) = (false, pre ++ [t]) := by
  intro pre
  induction pre with
  | nil =>
    intro t post _ hfail
    rcases hfail with hf | hf | hf
    · simp [is_user_joined_all, hf]
    · simp [is_user_joined_all, hf]
    · simp [is_user_joined_all, hf]
  | cons p pre' ih =>
    intro t post hpre hfail
    obtain ⟨s, hs, h1, h2⟩ := hpre p (by simp)
    have hb : (s == some "left" || s == some "kicked") = false := by
      simp [h1, h2]
    have hrec := ih t post (fun q hq => hpre q (List.mem_cons_of_mem _ hq)) hfail
    simp [is_user_joined_all, hs, hb, hrec]

/-- C4 (counterexample): a target whose reported status `"banana"` is not
in the enumerated member-like set is treated as satisfied — the gate
returns `true`, refuting the claim that any unknown status maps to "not
satisfied". -/
theorem joined_all_unknown_status_passes :
    (is_user_joined_all unknownStatusOracle 1 ["@grp"]).1 = true := by decide

/-- C4 (amended): the gate blacklists exactly `"left"` and `"kicked"`, and
fails closed on oracle errors: it returns `true` iff every target's query
succeeds with a status that is neither `"left"` nor `"kicked"`; every other
reported status (known or unknown) is treated as satisfied. -/
theorem joined_all_blacklist_characterization
    (oracle : MemberOracle) (user_id : Int) (targets : List String) :
    (is_user_joined_all oracle user_id targets).1 = true ↔
      ∀ t ∈ targets, ∃ s, oracle t user_id = Except.ok s ∧
        s ≠ some "left" ∧ s ≠ some "kicked" :=
  joined_all_true_iff oracle user_id targets

/-- Witness for C4 (amended) at a concrete input: an oracle erring on
`"@b"` fails the gate over `["@a", "@b"]`, and the characterization's
forward direction certifies an all-good oracle. -/
theorem joined_all_blacklist_characterization_witness :
    (is_user_joined_all unknownStatusOracle 1 ["@a", "@b"]).1 = true ∧
    ∀ t ∈ ["@a", "@b"], ∃ s, unknownStatusOracle t 1 = Except.ok s ∧
      s ≠ some "left" ∧ s ≠ some "kicked" := by
  have h := (joined_all_blacklist_characterization unknownStatusOracle 1
    ["@a", "@b"]).mp (by decide)
  exact ⟨by decide, h⟩

/-- C5: the gate is vacuously true on an empty target list; any target
reporting `"left"` fails it; any oracle error fails it (fail closed); and
evaluation short-circuits: on a list `pre ++ t :: post` whose prefix passes
and whose target `t` errs or reports `"left"`/`"kicked"`, the gate returns
`false` having queried exactly `pre ++ [t]`. -/
theorem joined_all_gate_properties :
    (∀ (oracle : MemberOracle) (user_id : Int),
      is_user_joined_all oracle user_id [] = (true, [])) ∧
    (∀ (oracle : MemberOracle) (user_id : Int) (targets : List String) (t : String),
      t ∈ targets → oracle t user_id = Except.ok (some "left") →
      (is_user_joined_all oracle user_id targets).1 = false) ∧
    (∀ (oracle : MemberOracle) (user_id : Int) (targets : List String) (t : String),
      t ∈ targets → oracle t user_id = Except.error () →
      (is_user_joined_all oracle user_id targets).1 = false) ∧
    (∀ (oracle : MemberOracle) (user_id : Int) (pre : List String) (t : String)
      (post : List String),
      (∀ p ∈ pre, ∃ s, oracle p user_id = Except.ok s ∧
        s ≠ some "left" ∧ s ≠ some "kicked") →
      (oracle t user_id = Except.error () ∨
        oracle t user_id = Except.ok (some "left") ∨
        oracle t user_id = Except.ok (some "kicked")) →
      is_user_joined_all oracle user_id (pre ++ t :: post) = (false, pre ++ [t])) := by
  refine ⟨fun _ _ => rfl, ?_, ?_, joined_all_stops_at_first_failure⟩
  · intro oracle user_id targets t ht hoc
    cases hres : (is_user_joined_all oracle user_id targets).1 with
    | false => rfl
    | true =>
      obtain ⟨s, hs, h1, _⟩ := (joined_all_true_iff oracle user_id targets).mp hres t ht
      rw [hoc] at hs
      injection hs with hs'
      exact (h1 hs'.symm).elim
  · intro oracle user_id targets t ht hoc
    cases hres : (is_user_joined_all oracle user_id targets).1 with
    | false => rfl
    | true =>
      obtain ⟨s, hs, _, _⟩ := (joined_all_true_iff oracle user_id targets).mp hres t ht
      rw [hoc] at hs
      cases hs

/-- Witness for C5 at concrete inputs: empty list passes; a `"left"`
report fails; an erring target fails; and on `["@a", "@b", "@c"]` with
`"@b"` erring the loop stops after querying `["@a", "@b"]`. -/
theorem joined_all_gate_properties_witness :
    is_user_joined_all c5Oracle 1 [] = (true, []) ∧
    (is_user_joined_all (fun _ _ => Except.ok (some "left")) 1 ["@a"]).1 = false ∧
    (is_user_joined_all c5Oracle 1 ["@a", "@b"]).1 = false ∧
    is_user_joined_all c5Oracle 1 ["@a", "@b", "@c"] = (false, ["@a", "@b"]) := by
  have h := joined_all_gate_properties
  refine ⟨h.1 c5Oracle 1, ?_, ?_, ?_⟩
  · exact h.2.1 (fun _ _ => Except.ok (some "left")) 1 ["@a"] "@a" (by decide) rfl
  · exact h.2.2.1 c5Oracle 1 ["@a", "@b"] "@b" (by decide) rfl
  · refine h.2.2.2 c5Oracle 1 ["@a"] "@b" ["@c"] ?_ (Or.inl rfl)
    intro p hp
    have hpa : p = "@a" := by simpa using hp
    subst hpa
    exact ⟨some "member", rfl, by decide, by decide⟩

theorem urlCount_append (a b : Keyboard) :
    urlCount (a ++ b) = urlCount a + urlCount b := by
  induction a with
  | nil => simp [urlCount]
  | cons row rows ih => simp [urlCount, ih]; omega

/-- Each loop step adds exactly one join button, wherever it lands. -/
theorem joinKbStep_url_count (pr : Nat) (jt : String) (st : Keyboard × List Btn)
    (it : Nat × String) :
    urlCount (joinKbStep pr jt st it).1 + ((joinKbStep pr jt st it).2.countP isUrlBtn)
      = urlCount st.1 + (st.2.countP isUrlBtn) + 1 := by
  simp only [joinKbStep]
  generalize (if startsWithAt it.2
    then "https://t.me/" ++ lstripAt it.2 else "https://t.me/") = u
  split
  · simp [urlCount_append, urlCount, List.countP_append, isUrlBtn]
    omega
  · simp [List.countP_append, isUrlBtn]
    omega

/-- Folding the loop over `l` adds `l.length` join buttons. -/
theorem joinKb_fold_url_count (pr : Nat) (jt : String) :
    ∀ (l : List (Nat × String)) (st : Keyboard × List Btn),
      urlCount (l.foldl (joinKbStep pr jt) st).1
        + ((l.foldl (joinKbStep pr jt) st).2.countP isUrlBtn)
      = urlCount st.1 + (st.2.countP isUrlBtn) + l.length := by
  intro l
  induction l with
  | nil => intro st; simp
  | cons it l ih =>
    intro st
    rw [List.foldl_cons, ih (joinKbStep pr jt st it), joinKbStep_url_count]
    simp only [List.length_cons]
    omega

/-- The built keyboard has exactly one join button per target, and its last
row is the single "done" re-check button carrying `done_callback_data`. -/
theorem build_join_keyboard_shape (targets : List String) (pr : Nat)
    (jt d : String) :
    urlCount (build_join_keyboard targets pr jt d) = targets.length ∧
    (build_join_keyboard targets pr jt d).getLast? = some [Btn.cb "✅ Sudah Join" d] := by
  constructor
  · have hfold := joinKb_fold_url_count pr jt (List.enumFrom 1 targets) ([], [])
    rw [List.enumFrom_length] at hfold
    simp only [urlCount, List.countP_nil, Nat.add_zero, Nat.zero_add] at hfold
    simp only [build_join_keyboard, urlCount_append]
    by_cases hbuf :
        ((List.enumFrom 1 targets).foldl (joinKbStep pr jt) ([], [])).2.isEmpty
    · rw [if_pos hbuf]
      have hbuf0 :
          ((List.enumFrom 1 targets).foldl (joinKbStep pr jt) ([], [])).2 = [] := by
        simpa using hbuf
      rw [hbuf0] at hfold
      simp only [List.countP_nil, Nat.add_zero] at hfold
      simp [urlCount, isUrlBtn, hfold]
    · rw [if_neg hbuf]
      rw [urlCount_append]
      simp only [urlCount, isUrlBtn, List.countP_nil] at hfold ⊢
      simp [List.countP_cons, isUrlBtn]
      omega
  · simp only [build_join_keyboard]
    rw [List.getLast?_concat]

/-- C8: when the membership gate fails, `gate_or_send` emits exactly one
effect — the gating prompt whose keyboard is built over the configured
targets with the re-check affordance carrying `"fsub_done:" ++ file_id` —
with one join button per target; no store read and no delivery occur, and
conversely a store read or a delivery attempt in the trace implies the gate
had passed. -/
theorem gate_failure_blocks_delivery :
    (∀ (targets : List String) (pr : Nat) (jt : String) (fs : FilesTable)
        (file_id : String) (copy_ok : Bool),
      gate_or_send false targets pr jt fs file_id copy_ok =
        [Effect.replyGate (build_join_keyboard targets pr jt ("fsub_done:" ++ file_id))]) ∧
    (∀ (targets : List String) (pr : Nat) (jt d : String),
      urlCount (build_join_keyboard targets pr jt d) = targets.length) ∧
    (∀ (targets : List String) (pr : Nat) (jt d : String),
      (build_join_keyboard targets pr jt d).getLast? =
        some [Btn.cb "✅ Sudah Join" d]) ∧
    (∀ (joined : Bool) (targets : List String) (pr : Nat) (jt : String)
        (fs : FilesTable) (file_id : String) (copy_ok : Bool) (f : String),
      Effect.storeGet f ∈ gate_or_send joined targets pr jt fs file_id copy_ok →
      joined = true) ∧
    (∀ (joined : Bool) (targets : List String) (pr : Nat) (jt : String)
        (fs : FilesTable) (file_id : String) (copy_ok : Bool) (c m : Int),
      Effect.copyMessage c m ∈ gate_or_send joined targets pr jt fs file_id copy_ok →
      joined = true) := by
  refine ⟨fun _ _ _ _ _ _ => rfl,
    fun targets pr jt d => (build_join_keyboard_shape targets pr jt d).1,
    fun targets pr jt d => (build_join_keyboard_shape targets pr jt d).2,
    ?_, ?_⟩
  · intro joined targets pr jt fs file_id copy_ok f hmem
    cases joined with
    | true => rfl
    | false => simp [gate_or_send] at hmem
  · intro joined targets pr jt fs file_id copy_ok c m hmem
    cases joined with
    | true => rfl
    | false => simp [gate_or_send] at hmem

/-- Witness for C8 at a concrete failed gate: two targets, the trace is the
single prompt, and a concrete store-read trace entry forces `joined = true`. -/
theorem gate_failure_blocks_delivery_witness :
    gate_or_send false ["@a", "@b"] 3 "JOIN" [] "f1" true =
      [Effect.replyGate (build_join_keyboard ["@a", "@b"] 3 "JOIN" "fsub_done:f1")] ∧
    urlCount (build_join_keyboard ["@a", "@b"] 3 "JOIN" "fsub_done:f1") = 2 ∧
    (build_join_keyboard ["@a", "@b"] 3 "JOIN" "fsub_done:f1").getLast? =
      some [Btn.cb "✅ Sudah Join" "fsub_done:f1"] ∧
    (Effect.storeGet "f1" ∈ gate_or_send true ["@a"] 3 "JOIN" [] "f1" true →
      (true : Bool) = true) := by
  have h := gate_failure_blocks_delivery
  exact ⟨h.1 ["@a", "@b"] 3 "JOIN" [] "f1" true,
    h.2.1 ["@a", "@b"] 3 "JOIN" "fsub_done:f1",
    h.2.2.1 ["@a", "@b"] 3 "JOIN" "fsub_done:f1",
    h.2.2.2.1 true ["@a"] 3 "JOIN" [] "f1" true "f1"⟩

/-! ### Bounded code generation (`save_file`) -/

/-- The loop makes at most as many attempts as it has iterations left. -/
theorem pickCodeAux_attempts_le (lookup : String → Option String) (gen : Nat → String) :
    ∀ (n i : Nat), (pickCodeAux lookup gen i n).2 ≤ n := by
  intro n
  induction n with
  | zero => intro i; simp [pickCodeAux]
  | succ m ih =>
    intro i
    simp only [pickCodeAux]
    split
    · simp
    · have := ih (i + 1)
      simp
      omega

/-- If every remaining candidate collides, the loop exhausts all its
iterations and picks nothing. -/
theorem pickCodeAux_all_collide (lookup : String → Option String) (gen : Nat → String) :
    ∀ (n i : Nat), (∀ j, j < n → pyFalsy (lookup (gen (i + j))) = false) →
      pickCodeAux lookup gen i n = (none, n) := by
  intro n
  induction n with
  | zero => intro i _; rfl
  | succ m ih =>
    intro i h
    have h0 : pyFalsy (lookup (gen i)) = false := by
      have := h 0 (by omega)
      simpa using this
    simp only [pickCodeAux, h0, Bool.false_eq_true, if_false]
    have hrest : ∀ j, j < m → pyFalsy (lookup (gen (i + 1 + j))) = false := by
      intro j hj
      have := h (j + 1) (by omega)
      have harith : i + (j + 1) = i + 1 + j := by omega
      rwa [harith] at this
    rw [ih (i + 1) hrest]

/-- The loop stops at the first non-colliding candidate and reports it with
the number of attempts spent. -/
theorem pickCodeAux_first_hit (lookup : String → Option String) (gen : Nat → String) :
    ∀ (n i k : Nat), k < n →
      pyFalsy (lookup (gen (i + k))) = true →
      (∀ j, j < k → pyFalsy (lookup (gen (i + j))) = false) →
      pickCodeAux lookup gen i n = (some (gen (i + k)), k + 1) := by
  intro n
  induction n with
  | zero => intro i k hk; omega
  | succ m ih =>
    intro i k hk hhit hpre
    cases k with
    | zero =>
      have h0 : pyFalsy (lookup (gen i)) = true := by simpa using hhit
      simp [pickCodeAux, h0]
    | succ k' =>
      have h0 : pyFalsy (lookup (gen i)) = false := by
        have := hpre 0 (by omega)
        simpa using this
      simp only [pickCodeAux, h0, Bool.false_eq_true, if_false]
      have hpre' : ∀ j, j < k' → pyFalsy (lookup (gen (i + 1 + j))) = false := by
        intro j hj
        have := hpre (j + 1) (by omega)
        have harith : i + (j + 1) = i + 1 + j := by omega
        rwa [harith] at this
      have hhit' : pyFalsy (lookup (gen (i + 1 + k'))) = true := by
        have harith : i + (k' + 1) = i + 1 + k' := by omega
        rwa [harith] at hhit
      rw [ih (i + 1) k' (by omega) hhit' hpre']
      have harith : i + 1 + k' = i + (k' + 1) := by omega
      rw [harith]

/-- C9: the ingest path's code generation is bounded: at most 20
generator/lookup attempt pairs; if all 20 candidates collide the phase
surfaces the generation-failure outcome and never reaches `save_link`;
and at the first non-colliding candidate it stops and calls
`save_link(code, file_id)` with exactly that code. -/
theorem save_file_code_generation_bounded (lookup : String → Option String)
    (gen : Nat → String) (file_id : String) :
    ((pickCode lookup gen).2 ≤ 20) ∧
    ((∀ i, i < 20 → pyFalsy (lookup (gen i)) = false) →
      pickCode lookup gen = (none, 20) ∧
      save_file_code_phase lookup gen file_id = GenOutcome.genFailed) ∧
    (∀ k, k < 20 → pyFalsy (lookup (gen k)) = true →
      (∀ j, j < k → pyFalsy (lookup (gen j)) = false) →
      pickCode lookup gen = (some (gen k), k + 1) ∧
      save_file_code_phase lookup gen file_id = GenOutcome.saveLinkCall (gen k) file_id) := by
  refine ⟨pickCodeAux_attempts_le lookup gen 20 0, ?_, ?_⟩
  · intro h
    have hall : ∀ j, j < 20 → pyFalsy (lookup (gen (0 + j))) = false := by
      intro j hj
      simpa using h j hj
    have hpick : pickCode lookup gen = (none, 20) :=
      pickCodeAux_all_collide lookup gen 20 0 hall
    refine ⟨hpick, ?_⟩
    simp [save_file_code_phase, hpick]
  · intro k hk hhit hpre
    have hpick : pickCode lookup gen = (some (gen k), k + 1) := by
      have := pickCodeAux_first_hit lookup gen 20 0 k hk (by simpa using hhit)
        (fun j hj => by simpa using hpre j hj)
      simpa using this
    refine ⟨hpick, ?_⟩
    simp [save_file_code_phase, hpick]

/-- Witness for C9: with "x0" colliding, the loop stops at "x1" after 2
attempts and calls `save_link("x1", fid)`; with everything colliding it
fails without saving. -/
theorem save_file_code_generation_bounded_witness :
    pickCode c9Lookup c9Gen = (some (c9Gen 1), 2) ∧
    save_file_code_phase c9Lookup c9Gen "fid" =
      GenOutcome.saveLinkCall (c9Gen 1) "fid" ∧
    save_file_code_phase (fun _ => some "f") c9Gen "fid" = GenOutcome.genFailed := by
  have h := save_file_code_generation_bounded c9Lookup c9Gen "fid"
  have hhit := h.2.2 1 (by omega) (by decide) (by decide)
  have hcoll := (save_file_code_generation_bounded (fun _ => some "f") c9Gen "fid").2.1
    (by intro i _; decide)
  exact ⟨hhit.1, hhit.2, hcoll.2⟩

/-- Under unique keys, a predicate entailing a fixed key matches at most
one element. -/
theorem countP_le_one_of_key {l : List α} {k : α → String} {p : α → Bool}
    {key : String}
    (hn : (l.map k).Nodup) (hp : ∀ x, p x = true → k x = key) :
    l.countP p ≤ 1 := by
  induction l with
  | nil => simp
  | cons a l ih =>
    rw [List.map_cons, List.nodup_cons] at hn
    by_cases hpa : p a = true
    · rw [List.countP_cons_of_pos _ _ hpa]
      have h0 : l.countP p = 0 := by
        rw [List.countP_eq_zero]
        intro x hx hpx
        apply hn.1
        have hkx : k x = k a := by rw [hp x hpx, hp a hpa]
        rw [← hkx]
        exact List.mem_map_of_mem k hx
      omega
    · rw [List.countP_cons_of_neg _ _ (by simpa using hpa)]
      exact ih hn.2

/-- Conditional-map updates that preserve the key leave the key column
unchanged. -/
theorem keys_of_map_ite {l : List α} {k : α → String} {p : α → Bool} {f : α → α}
    (hf : ∀ x, p x = true → k (f x) = k x) :
    (l.map (fun x => if p x then f x else x)).map k = l.map k := by
  induction l with
  | nil => rfl
  | cons a l ih =>
    by_cases hpa : p a = true
    · simp only [List.map_cons, hpa, if_true, ih, hf a hpa]
    · simp only [List.map_cons, ih]
      rw [if_neg hpa]

/-- Appending a row whose key was absent keeps the key column duplicate
free. -/
theorem nodup_keys_append {l : List α} {k : α → String} {key : String} (a : α)
    (hn : (l.map k).Nodup) (h : l.find? (fun x => k x == key) = none)
    (hka : k a = key) :
    ((l ++ [a]).map k).Nodup := by
  rw [List.map_append, List.map_cons, List.map_nil]
  rw [List.nodup_append]
  refine ⟨hn, List.nodup_singleton _, ?_⟩
  intro x hx hxa
  have hxk : x = k a := by simpa using hxa
  rw [List.find?_eq_none] at h
  obtain ⟨y, hy, hyk⟩ := List.mem_map.mp hx
  exact h y hy (by rw [hyk, hxk, hka]; simp)

/-- The two `upsert`s agree on states with unique keys. -/
theorem upsert_agree (fs : FilesTable) (rec : FileRecord)
    (hn : (fs.map (·.file_id)).Nodup) :
    SQLiteStorage.upsert fs rec = MongoStorage.upsert fs rec := by
  unfold SQLiteStorage.upsert MongoStorage.upsert
  by_cases h : (fs.find? (fun r => r.file_id == rec.file_id)).isSome
  · rw [if_pos h, if_pos h]
    have hcnt : fs.countP (fun r => r.file_id == rec.file_id) ≤ 1 :=
      countP_le_one_of_key hn (fun x hx => eq_of_beq hx)
    exact map_ite_eq_updateFirst hcnt
  · rw [if_neg h, if_neg h]

/-- The two `save_link`s agree on states with unique keys. -/
theorem save_link_agree (ls : LinksTable) (code f : String)
    (hn : (ls.map (·.code)).Nodup) :
    SQLiteStorage.save_link ls code f = MongoStorage.save_link ls code f := by
  unfold SQLiteStorage.save_link MongoStorage.save_link
  by_cases h : (ls.find? (fun r => r.code == code)).isSome
  · rw [if_pos h, if_pos h]
    have hcnt : ls.countP (fun r => r.code == code) ≤ 1 :=
      countP_le_one_of_key hn (fun x hx => eq_of_beq hx)
    exact map_ite_eq_updateFirst hcnt
  · rw [if_neg h, if_neg h]

/-- The two `claim_link`s agree on states with unique keys: the SQLite
write-then-re-read and the Mongo conditional `update_one` give the same
reply and the same resulting table. -/
theorem claim_link_agree (ls : LinksTable) (code : String) (user_id : Int)
    (hn : (ls.map (·.code)).Nodup) :
    SQLiteStorage.claim_link ls code user_id = MongoStorage.claim_link ls code user_id := by
  cases hfind : ls.find? (fun r => r.code == code) with
  | none => rw [sqlite_claim_invalid hfind, mongo_claim_invalid hfind]
  | some row =>
    cases horow : row.owner_user_id with
    | none =>
      rw [(sqlite_claim_owner_none user_id hfind horow).1,
        (mongo_claim_owner_none user_id hfind horow).1]
      have hcnt : ls.countP (claimFilter code) ≤ 1 :=
        countP_le_one_of_key hn
          (fun x hx => eq_of_beq (claimFilter_imp_code x hx))
      rw [map_ite_eq_updateFirst hcnt]
    | some owner =>
      by_cases how : owner = user_id
      · subst how
        rw [sqlite_claim_owner_eq hfind horow, mongo_claim_owner_eq hfind horow]
      · rw [sqlite_claim_owner_ne hfind horow how, mongo_claim_owner_ne hfind horow how]

/-- On states with unique keys, both backends take identical steps. -/
theorem step_agree (s : StoreState) (op : StoreOp) (hn : keysUnique s) :
    sqliteStep s op = mongoStep s op := by
  cases op with
  | upsertOp rec => simp [sqliteStep, mongoStep, upsert_agree s.1 rec hn.1]
  | getOp fid => rfl
  | saveLinkOp c f => simp [sqliteStep, mongoStep, save_link_agree s.2 c f hn.2]
  | codeLookupOp c => rfl
  | claimLinkOp c u => simp [sqliteStep, mongoStep, claim_link_agree s.2 c u hn.2]

/-- SQLite `upsert` keeps `file_id` keys duplicate free. -/
theorem sqlite_upsert_preserves (fs : FilesTable) (rec : FileRecord)
    (hn : (fs.map (·.file_id)).Nodup) :
    ((SQLiteStorage.upsert fs rec).map (·.file_id)).Nodup := by
  unfold SQLiteStorage.upsert
  by_cases h : (fs.find? (fun r => r.file_id == rec.file_id)).isSome
  · rw [if_pos h]
    have hkeys : (fs.map (fun r => if r.file_id == rec.file_id then rec else r)).map
        (fun r : FileRecord => r.file_id) = fs.map (fun r : FileRecord => r.file_id) :=
      keys_of_map_ite (fun x hx => (eq_of_beq hx).symm)
    rw [hkeys]
    exact hn
  · rw [if_neg h]
    exact nodup_keys_append rec hn (Option.not_isSome_iff_eq_none.mp h) rfl

/-- SQLite `save_link` keeps `code` keys duplicate free. -/
theorem sqlite_save_link_preserves (ls : LinksTable) (code f : String)
    (hn : (ls.map (·.code)).Nodup) :
    ((SQLiteStorage.save_link ls code f).map (·.code)).Nodup := by
  unfold SQLiteStorage.save_link
  by_cases h : (ls.find? (fun r => r.code == code)).isSome
  · rw [if_pos h]
    have hkeys : (ls.map (fun r => if r.code == code then { r with file_id := f } else r)).map
        (fun r : LinkRow => r.code) = ls.map (fun r : LinkRow => r.code) :=
      keys_of_map_ite (fun x _ => rfl)
    rw [hkeys]
    exact hn
  · rw [if_neg h]
    exact nodup_keys_append _ hn (Option.not_isSome_iff_eq_none.mp h) rfl

/-- SQLite `claim_link` keeps `code` keys duplicate free. -/
theorem sqlite_claim_preserves (ls : LinksTable) (code : String) (user_id : Int)
    (hn : (ls.map (·.code)).Nodup) :
    (((SQLiteStorage.claim_link ls code user_id).2).map (·.code)).Nodup := by
  cases hfind : ls.find? (fun r => r.code == code) with
  | none =>
    rw [sqlite_claim_invalid hfind]
    exact hn
  | some row =>
    cases horow : row.owner_user_id with
    | none =>
      rw [(sqlite_claim_owner_none user_id hfind horow).1]
      show ((ls.map (fun r => if claimFilter code r then setOwner user_id r else r)).map
        (fun r : LinkRow => r.code)).Nodup
      have hkeys : (ls.map (fun r => if claimFilter code r then setOwner user_id r else r)).map
          (fun r : LinkRow => r.code) = ls.map (fun r : LinkRow => r.code) :=
        keys_of_map_ite (fun x _ => rfl)
      rw [hkeys]
      exact hn
    | some owner =>
      by_cases how : owner = user_id
      · subst how
        rw [sqlite_claim_owner_eq hfind horow]
        exact hn
      · rw [sqlite_claim_owner_ne hfind horow how]
        exact hn

/-- Every SQLite step preserves key uniqueness. -/
theorem sqliteStep_preserves (s : StoreState) (op : StoreOp) (hn : keysUnique s) :
    keysUnique (sqliteStep s op).2 := by
  cases op with
  | upsertOp rec => exact ⟨sqlite_upsert_preserves s.1 rec hn.1, hn.2⟩
  | getOp fid => exact hn
  | saveLinkOp c f => exact ⟨hn.1, sqlite_save_link_preserves s.2 c f hn.2⟩
  | codeLookupOp c => exact hn
  | claimLinkOp c u => exact ⟨hn.1, sqlite_claim_preserves s.2 c u hn.2⟩

/-- Both backends produce identical reply traces from any state with unique
keys. -/
theorem run_agree : ∀ (ops : List StoreOp) (s : StoreState), keysUnique s →
    sqliteRun s ops = mongoRun s ops := by
  intro ops
  induction ops with
  | nil => intro s _; rfl
  | cons op ops ih =>
    intro s hn
    have hstep := step_agree s op hn
    simp only [sqliteRun, mongoRun]
    rw [← hstep]
    exact congrArg _ (ih _ (sqliteStep_preserves s op hn))

/-- C3: the embedded (SQLite) and networked (Mongo) storage backends have
identical externally observable semantics: every sequence of
`upsert` / `get` / `save_link` / `get_file_id_by_code` / `claim_link`
operations applied to both backends from empty stores yields the same
reply for each operation. -/
theorem storage_backends_equivalent (ops : List StoreOp) :
    sqliteRun (([], []) : StoreState) ops = mongoRun ([], []) ops :=
  run_agree ops ([], []) ⟨List.nodup_nil, List.nodup_nil⟩
